import Mathlib

/-!
Shallow embedding of the BSDF core of the Zebra repository
(src/swan/bsdf.hpp) and its camera (src/zebra/camera.hpp), with proofs of
the specified properties.  Real-valued `double` arithmetic is embedded as
exact real arithmetic over `ℝ`; division is the total division of `ℝ`
(so a division by zero is made visible by proving the divisor zero rather
than by producing an IEEE infinity).
-/

noncomputable section

namespace Swan

/-- Modelled from the spec: `Spectrum` lives in the missing header
`vector.hpp`; the spec describes it as an RGB color value supporting
addition, scalar multiplication and componentwise operations, with the
default constructor `Spectrum()` giving the zero spectrum. -/
structure Spectrum where
  r : ℝ
  g : ℝ
  b : ℝ

/-- Modelled from the spec: componentwise scalar multiplication `s * k`. -/
def Spectrum.mul (s : Spectrum) (k : ℝ) : Spectrum :=
  ⟨s.r * k, s.g * k, s.b * k⟩

/-- Modelled from the spec: componentwise scalar division `s / k`. -/
def Spectrum.div (s : Spectrum) (k : ℝ) : Spectrum :=
  ⟨s.r / k, s.g / k, s.b / k⟩

/-- Modelled from the spec: the default-constructed zero spectrum. -/
def Spectrum.zero : Spectrum := ⟨0, 0, 0⟩

/-- Modelled from the spec: `Vector` lives in the missing header
`vector.hpp`; a 3-vector with components `x_`, `y_`, `z_`. -/
structure Vector where
  x : ℝ
  y : ℝ
  z : ℝ

/-- Modelled from the spec: componentwise scalar multiplication `v * k`. -/
def Vector.smul (v : Vector) (k : ℝ) : Vector :=
  ⟨v.x * k, v.y * k, v.z * k⟩

/-- Modelled from the spec: componentwise vector addition. -/
def Vector.add (v w : Vector) : Vector :=
  ⟨v.x + w.x, v.y + w.y, v.z + w.z⟩

/-- Modelled from the spec: Euclidean length of a vector. -/
def Vector.length (v : Vector) : ℝ :=
  Real.sqrt (v.x * v.x + v.y * v.y + v.z * v.z)

/-- Modelled from the spec: `Normalize` (missing header `vector.hpp`)
rescales a vector to unit length, dividing by its Euclidean length. -/
def Normalize (v : Vector) : Vector :=
  v.smul (1 / v.length)

/-- Modelled from the spec: `PI` from the missing header `constant.hpp`
is the mathematical constant pi. -/
def PI : ℝ := Real.pi

/-- Modelled from the spec: `INV_PI` from the missing header
`constant.hpp` is the reciprocal of pi. -/
def INV_PI : ℝ := 1 / Real.pi

/-- bsdf.hpp line 24: `CosTheta(wi)` returns `wi.z_`. -/
def CosTheta (wi : Vector) : ℝ := wi.z

/-- bsdf.hpp line 29: `AbsCosTheta(wi)` returns `|wi.z_|`. -/
def AbsCosTheta (wi : Vector) : ℝ := |wi.z|

/-- bsdf.hpp line 34: `CosineWeightedHemisphere`, with the two uniform
draws `u1`, `u2` of the global generator made explicit parameters. -/
def CosineWeightedHemisphere (u1 u2 : ℝ) : Vector :=
  let theta := Real.arcsin (Real.sqrt u1)
  let phi := 2 * PI * u2
  let sini := Real.sin theta
  let cosi := Real.cos theta
  Normalize ⟨sini * Real.cos phi, sini * Real.sin phi, cosi⟩

/-- bsdf.hpp lines 54-57: the index pair actually used by
`FresnelDielectric` after the sign-normalisation branch (incident side). -/
def fdEtaI (cosi etai etat : ℝ) : ℝ :=
  if cosi < 0 then etat else etai

/-- bsdf.hpp lines 54-57: the index pair actually used by
`FresnelDielectric` after the sign-normalisation branch (transmitted side). -/
def fdEtaT (cosi etai etat : ℝ) : ℝ :=
  if cosi < 0 then etai else etat

/-- bsdf.hpp lines 54-57: the non-negative cosine used by
`FresnelDielectric` after the sign-normalisation branch. -/
def fdCosI (cosi : ℝ) : ℝ :=
  if cosi < 0 then -cosi else cosi

/-- bsdf.hpp line 59: `sini = sqrt(max(0, 1 - cosi*cosi))`. -/
def fdSinI (cosi : ℝ) : ℝ :=
  Real.sqrt (max 0 (1 - fdCosI cosi * fdCosI cosi))

/-- bsdf.hpp line 60: `sint = etai / etat * sini` (Snell law). -/
def fdSinT (cosi etai etat : ℝ) : ℝ :=
  fdEtaI cosi etai etat / fdEtaT cosi etai etat * fdSinI cosi

/-- bsdf.hpp line 64: `cost = sqrt(max(0, 1 - sint*sint))`. -/
def fdCosT (cosi etai etat : ℝ) : ℝ :=
  Real.sqrt (max 0 (1 - fdSinT cosi etai etat * fdSinT cosi etai etat))

/-- bsdf.hpp lines 66-71: `parl = (term2 - term1) / (term2 + term1)` with
`term1 = etai*cost` and `term2 = etat*cosi`. -/
def fdParl (cosi etai etat : ℝ) : ℝ :=
  (fdEtaT cosi etai etat * fdCosI cosi - fdEtaI cosi etai etat * fdCosT cosi etai etat) /
    (fdEtaT cosi etai etat * fdCosI cosi + fdEtaI cosi etai etat * fdCosT cosi etai etat)

/-- bsdf.hpp lines 68-72: `perp = (term3 - term4) / (term3 + term4)` with
`term3 = etai*cosi` and `term4 = etat*cost`. -/
def fdPerp (cosi etai etat : ℝ) : ℝ :=
  (fdEtaI cosi etai etat * fdCosI cosi - fdEtaT cosi etai etat * fdCosT cosi etai etat) /
    (fdEtaI cosi etai etat * fdCosI cosi + fdEtaT cosi etai etat * fdCosT cosi etai etat)

/-- bsdf.hpp lines 52-74: `FresnelDielectric(cosi, etai, etat)`; returns 1
on the total-internal-reflection branch (`sint >= 1`), otherwise the
unpolarised average `(parl*parl + perp*perp) * 0.5`. -/
def FresnelDielectric (cosi etai etat : ℝ) : ℝ :=
  if 1 ≤ fdSinT cosi etai etat then 1
  else (fdParl cosi etai etat * fdParl cosi etai etat +
        fdPerp cosi etai etat * fdPerp cosi etai etat) * 0.5

/-- Result of a `SampleF` call: the returned spectrum together with the
by-reference outputs `wi` and `pdf`. -/
structure SampleResult where
  value : Spectrum
  wi : Vector
  pdf : ℝ

namespace DiffuseBSDF

/-- bsdf.hpp lines 98-100: `DiffuseBSDF::F` returns `r_ * INV_PI`. -/
def F (r : Spectrum) (wo wi : Vector) : Spectrum :=
  r.mul INV_PI

/-- bsdf.hpp lines 102-106: `DiffuseBSDF::SampleF`, with the two uniform
draws consumed by `CosineWeightedHemisphere` made explicit parameters. -/
def SampleF (r : Spectrum) (wo : Vector) (u1 u2 : ℝ) : SampleResult :=
  let wi := CosineWeightedHemisphere u1 u2
  { value := F r wo wi, wi := wi, pdf := CosTheta wi * INV_PI }

/-- bsdf.hpp line 85: `DiffuseBSDF` inherits `IsDelta() { return false; }`. -/
def IsDelta : Bool := false

end DiffuseBSDF

namespace ReflectBSDF

/-- bsdf.hpp lines 114-116: `ReflectBSDF::F` returns `Spectrum()`. -/
def F (r : Spectrum) (wo wi : Vector) : Spectrum :=
  Spectrum.zero

/-- bsdf.hpp lines 118-122: `ReflectBSDF::SampleF` mirrors `wo` about the
local normal, sets `pdf = 1`, and returns `r_ * (1 / CosTheta(wi))`. -/
def SampleF (r : Spectrum) (wo : Vector) : SampleResult :=
  let wi : Vector := ⟨-wo.x, -wo.y, wo.z⟩
  { value := r.mul (1 / CosTheta wi), wi := wi, pdf := 1 }

/-- bsdf.hpp line 124: `ReflectBSDF::IsDelta` returns true. -/
def IsDelta : Bool := true

end ReflectBSDF

namespace RefractBSDF

/-- bsdf.hpp lines 133-135: `RefractBSDF::F` returns `Spectrum()`. -/
def F (r : Spectrum) (wo wi : Vector) : Spectrum :=
  Spectrum.zero

end RefractBSDF

/-- bsdf.hpp line 139: the incident-side index chosen from the stored
pair `(etai_, etat_)` by the `entering = CosTheta(wo) < 0` test. -/
def rfEtaI (etaiC etatC : ℝ) (wo : Vector) : ℝ :=
  if CosTheta wo < 0 then etaiC else etatC

/-- bsdf.hpp line 140: the transmitted-side index chosen from the stored
pair `(etai_, etat_)` by the `entering` test. -/
def rfEtaT (etaiC etatC : ℝ) (wo : Vector) : ℝ :=
  if CosTheta wo < 0 then etatC else etaiC

/-- bsdf.hpp line 142: `eta = etai / etat`. -/
def rfEta (etaiC etatC : ℝ) (wo : Vector) : ℝ :=
  rfEtaI etaiC etatC wo / rfEtaT etaiC etatC wo

/-- bsdf.hpp line 144: `cosi = AbsCosTheta(wo)`. -/
def rfCosI (wo : Vector) : ℝ := AbsCosTheta wo

/-- bsdf.hpp line 146: `sini = max(0, 1 - cosi*cosi)` (a squared sine). -/
def rfSinI (wo : Vector) : ℝ :=
  max 0 (1 - rfCosI wo * rfCosI wo)

/-- bsdf.hpp line 147: `sint = eta * eta * sini` (a squared sine). -/
def rfSinT (etaiC etatC : ℝ) (wo : Vector) : ℝ :=
  rfEta etaiC etatC wo * rfEta etaiC etatC wo * rfSinI wo

/-- bsdf.hpp line 151: `cost = sqrt(1 - sint)` in the refraction branch. -/
def rfCosT (etaiC etatC : ℝ) (wo : Vector) : ℝ :=
  Real.sqrt (1 - rfSinT etaiC etatC wo)

/-- bsdf.hpp lines 153-158: `parl = (term2 - term1) / (term2 + term1)`
with `term1 = etai*cost`, `term2 = etat*cosi`. -/
def rfParl (etaiC etatC : ℝ) (wo : Vector) : ℝ :=
  (rfEtaT etaiC etatC wo * rfCosI wo - rfEtaI etaiC etatC wo * rfCosT etaiC etatC wo) /
    (rfEtaT etaiC etatC wo * rfCosI wo + rfEtaI etaiC etatC wo * rfCosT etaiC etatC wo)

/-- bsdf.hpp lines 155-159: `perp = (term3 - term4) / (term3 + term4)`
with `term3 = etai*cosi`, `term4 = etat*cost`. -/
def rfPerp (etaiC etatC : ℝ) (wo : Vector) : ℝ :=
  (rfEtaI etaiC etatC wo * rfCosI wo - rfEtaT etaiC etatC wo * rfCosT etaiC etatC wo) /
    (rfEtaI etaiC etatC wo * rfCosI wo + rfEtaT etaiC etatC wo * rfCosT etaiC etatC wo)

/-- bsdf.hpp line 160: the Fresnel reflectance computed inline in the
refraction branch, `re = (parl*parl + perp*perp) * 0.5`. -/
def rfRe (etaiC etatC : ℝ) (wo : Vector) : ℝ :=
  (rfParl etaiC etatC wo * rfParl etaiC etatC wo +
   rfPerp etaiC etatC wo * rfPerp etaiC etatC wo) * 0.5

/-- bsdf.hpp line 162: the refracted direction before normalisation,
`wo*eta + (0,0,1) * ((eta*cosi - cost) * (entering ? -1 : 1))`. -/
def rfWiPre (etaiC etatC : ℝ) (wo : Vector) : Vector :=
  (wo.smul (rfEta etaiC etatC wo)).add
    ((⟨0, 0, 1⟩ : Vector).smul
      ((rfEta etaiC etatC wo * rfCosI wo - rfCosT etaiC etatC wo) *
        (if CosTheta wo < 0 then -1 else 1)))

/-- bsdf.hpp line 162: the refracted direction, the normalisation of
`rfWiPre`. -/
def rfWiRefract (etaiC etatC : ℝ) (wo : Vector) : Vector :=
  Normalize (rfWiPre etaiC etatC wo)

namespace RefractBSDF

/-- bsdf.hpp lines 137-170: `RefractBSDF::SampleF`. -/
def SampleF (r : Spectrum) (etaiC etatC : ℝ) (wo : Vector) : SampleResult :=
  if rfSinT etaiC etatC wo < 1 then
    { value := (r.mul (1 - rfRe etaiC etatC wo)).div
        (AbsCosTheta (rfWiRefract etaiC etatC wo)),
      wi := rfWiRefract etaiC etatC wo,
      pdf := 1 - rfRe etaiC etatC wo }
  else
    { value := (r.mul 1).div (AbsCosTheta ⟨-wo.x, -wo.y, wo.z⟩),
      wi := ⟨-wo.x, -wo.y, wo.z⟩,
      pdf := 1 }

/-- bsdf.hpp line 172: `RefractBSDF::IsDelta` returns true. -/
def IsDelta : Bool := true

end RefractBSDF

end Swan

namespace Zebra

/-- Modelled from the spec: `Point2` (missing header `point.hpp`) is a 2D
raster coordinate with real components. -/
structure Point2 where
  x : ℝ
  y : ℝ

/-- Modelled from the spec: `Point2i` (missing header `point.hpp`) is a 2D
integer pixel coordinate. -/
structure Point2i where
  x : ℤ
  y : ℤ

/-- Conversion of a C++ `double` to `int`: truncation toward zero. -/
def doubleToInt (x : ℝ) : ℤ :=
  if 0 ≤ x then ⌊x⌋ else ⌈x⌉

/-- camera.hpp lines 23-27: `Camera::RasterToWorld`, parametrised by the
stored `resolution_`. -/
def RasterToWorld (resolution : Point2i) (p : Point2) : Swan.Vector :=
  Swan.Normalize ⟨p.x / (resolution.x : ℝ) - 0.5,
                  0.5 - p.y / (resolution.y : ℝ),
                  -1⟩

/-- camera.hpp lines 29-33: `Camera::WorldToRaster`, returning the
`(-1, -1)` sentinel when `v.z_ <= 0`. -/
def WorldToRaster (resolution : Point2i) (v : Swan.Vector) : Point2i :=
  if v.z ≤ 0 then ⟨-1, -1⟩
  else ⟨doubleToInt ((0.5 - v.x) * (resolution.x : ℝ)),
        doubleToInt ((0.5 + v.y) * (resolution.y : ℝ))⟩

end Zebra

end

open Swan Zebra

/-! ## Helper lemmas about `FresnelDielectric` -/

lemma fdCosI_nonneg (c : ℝ) : 0 ≤ fdCosI c := by
  unfold fdCosI
  split
  · linarith
  · next h => exact not_lt.mp h

lemma fdEtaI_pos {a b : ℝ} (c : ℝ) (ha : 0 < a) (hb : 0 < b) :
    0 < fdEtaI c a b := by
  unfold fdEtaI
  split <;> assumption

lemma fdEtaT_pos {a b : ℝ} (c : ℝ) (ha : 0 < a) (hb : 0 < b) :
    0 < fdEtaT c a b := by
  unfold fdEtaT
  split <;> assumption

lemma fdCosT_nonneg (c a b : ℝ) : 0 ≤ fdCosT c a b :=
  Real.sqrt_nonneg _

lemma ratio_sq_le_one (x y : ℝ) (hx : 0 ≤ x) (hy : 0 ≤ y) :
    ((x - y) / (x + y)) * ((x - y) / (x + y)) ≤ 1 := by
  rcases eq_or_lt_of_le (add_nonneg hx hy) with h | h
  · rw [← h, div_zero]
    norm_num
  · have habs : |x - y| ≤ x + y := by
      rw [abs_sub_le_iff]
      constructor <;> linarith
    have h1 : |(x - y) / (x + y)| ≤ 1 := by
      rw [abs_div, abs_of_pos h, div_le_one h]
      exact habs
    have h2 := abs_mul_abs_self ((x - y) / (x + y))
    nlinarith [abs_nonneg ((x - y) / (x + y))]

lemma fd_swap (c a b : ℝ) (hc : c < 0) :
    FresnelDielectric c a b = FresnelDielectric (-c) b a := by
  have h1 : ¬(-c < 0) := by linarith
  simp only [FresnelDielectric, fdParl, fdPerp, fdCosT, fdSinT, fdSinI,
    fdCosI, fdEtaI, fdEtaT, if_pos hc, if_neg h1]

lemma fd_cosi_zero (a b : ℝ) (ha : 0 < a) (hb : 0 < b) :
    FresnelDielectric 0 a b = 1 := by
  have hcos : fdCosI 0 = 0 := by unfold fdCosI; norm_num
  have hsini : fdSinI 0 = 1 := by
    unfold fdSinI
    rw [hcos]
    have h : (max 0 (1 - (0:ℝ) * 0)) = 1 := by norm_num
    rw [h, Real.sqrt_one]
  have hetai : fdEtaI 0 a b = a := by unfold fdEtaI; norm_num
  have hetat : fdEtaT 0 a b = b := by unfold fdEtaT; norm_num
  have hsint : fdSinT 0 a b = a / b := by
    unfold fdSinT
    rw [hsini, hetai, hetat, mul_one]
  by_cases h : 1 ≤ a / b
  · unfold FresnelDielectric
    rw [hsint, if_pos h]
  · push_neg at h
    have hab : 0 < a / b := div_pos ha hb
    have hcost_pos : 0 < fdCosT 0 a b := by
      unfold fdCosT
      rw [hsint]
      apply Real.sqrt_pos.mpr
      apply lt_max_of_lt_right
      nlinarith
    have hparl : fdParl 0 a b = -1 := by
      unfold fdParl
      rw [hcos, hetai, hetat]
      rw [show b * (0:ℝ) - a * fdCosT 0 a b = -(a * fdCosT 0 a b) by ring]
      rw [show b * (0:ℝ) + a * fdCosT 0 a b = a * fdCosT 0 a b by ring]
      rw [neg_div, div_self (mul_pos ha hcost_pos).ne']
    have hperp : fdPerp 0 a b = -1 := by
      unfold fdPerp
      rw [hcos, hetai, hetat]
      rw [show a * (0:ℝ) - b * fdCosT 0 a b = -(b * fdCosT 0 a b) by ring]
      rw [show a * (0:ℝ) + b * fdCosT 0 a b = b * fdCosT 0 a b by ring]
      rw [neg_div, div_self (mul_pos hb hcost_pos).ne']
    unfold FresnelDielectric
    rw [hsint, if_neg (not_le.mpr h), hparl, hperp]
    norm_num

lemma fres_equal_pos (c a : ℝ) (h0 : 0 < c) (h1 : c ≤ 1) (ha : 0 < a) :
    FresnelDielectric c a a = 0 := by
  have hnl : ¬(c < 0) := not_lt.mpr h0.le
  have hcc : c * c ≤ 1 := by nlinarith
  have hcos : fdCosI c = c := by unfold fdCosI; rw [if_neg hnl]
  have hEtaI : fdEtaI c a a = a := by unfold fdEtaI; rw [if_neg hnl]
  have hEtaT : fdEtaT c a a = a := by unfold fdEtaT; rw [if_neg hnl]
  have hsini : fdSinI c = Real.sqrt (1 - c * c) := by
    unfold fdSinI
    rw [hcos, max_eq_right (by linarith)]
  have hsint : fdSinT c a a = Real.sqrt (1 - c * c) := by
    unfold fdSinT
    rw [hsini, hEtaI, hEtaT, div_self ha.ne', one_mul]
  have hslt : fdSinT c a a < 1 := by
    rw [hsint]
    calc Real.sqrt (1 - c * c) < Real.sqrt 1 :=
          Real.sqrt_lt_sqrt (by linarith) (by nlinarith)
    _ = 1 := Real.sqrt_one
  have hsq : fdSinT c a a * fdSinT c a a = 1 - c * c := by
    rw [hsint]
    exact Real.mul_self_sqrt (by linarith)
  have hcost : fdCosT c a a = c := by
    unfold fdCosT
    rw [hsq, show (1 - (1 - c * c)) = c * c by ring,
      max_eq_right (mul_self_nonneg c), Real.sqrt_mul_self h0.le]
  unfold FresnelDielectric
  rw [if_neg (not_le.mpr hslt)]
  unfold fdParl fdPerp
  rw [hcos, hcost, hEtaI, hEtaT]
  simp

/-! ## Claims C4, C5, C6 about `FresnelDielectric` -/

/-- Claim C4 counterexample: at cosine 0 with equal indices 1, the
total-internal-reflection early return fires (the transmitted sine equals
1), so `FresnelDielectric 0 1 1` is 1, not 0 as the claim states. -/
theorem fresnel_equal_eta_zero_cos_cex : FresnelDielectric 0 1 1 ≠ 0 := by
  rw [fd_cosi_zero 1 1 one_pos one_pos]
  norm_num

/-- Claim C4 (amended): for every cosine c in [-1,1] with c different from
0 and every positive index a, `FresnelDielectric c a a` equals 0; at c = 0
the function instead returns 1 through the total-internal-reflection
branch. -/
theorem fresnel_equal_eta_eq_zero (c a : ℝ) (hc1 : -1 ≤ c) (hc2 : c ≤ 1)
    (hc0 : c ≠ 0) (ha : 0 < a) : FresnelDielectric c a a = 0 := by
  rcases lt_trichotomy c 0 with h | h | h
  · rw [fd_swap c a a h]
    exact fres_equal_pos (-c) a (by linarith) (by linarith) ha
  · exact absurd h hc0
  · exact fres_equal_pos c a h hc2 ha

/-- Claim C4 witness: concrete instance at c = 1/2, a = 2. -/
theorem fresnel_equal_eta_eq_zero_witness : FresnelDielectric (1/2) 2 2 = 0 :=
  fresnel_equal_eta_eq_zero (1/2) 2 (by norm_num) (by norm_num)
    (by norm_num) (by norm_num)

/-- Claim C5: for cosines in [-1,1] and positive indices,
`FresnelDielectric` lies in [0,1], and it returns exactly 1 whenever the
transmitted sine of Snell law is at least 1 (total internal reflection). -/
theorem fresnel_range_tir (c a b : ℝ) (hc1 : -1 ≤ c) (hc2 : c ≤ 1)
    (ha : 0 < a) (hb : 0 < b) :
    FresnelDielectric c a b ∈ Set.Icc (0:ℝ) 1 ∧
      (1 ≤ fdSinT c a b → FresnelDielectric c a b = 1) := by
  constructor
  · by_cases h : 1 ≤ fdSinT c a b
    · unfold FresnelDielectric
      rw [if_pos h]
      exact Set.mem_Icc.mpr ⟨zero_le_one, le_refl 1⟩
    · unfold FresnelDielectric
      rw [if_neg h]
      have hp : fdParl c a b * fdParl c a b ≤ 1 := by
        unfold fdParl
        exact ratio_sq_le_one _ _
          (mul_nonneg (fdEtaT_pos c ha hb).le (fdCosI_nonneg c))
          (mul_nonneg (fdEtaI_pos c ha hb).le (fdCosT_nonneg c a b))
      have hq : fdPerp c a b * fdPerp c a b ≤ 1 := by
        unfold fdPerp
        exact ratio_sq_le_one _ _
          (mul_nonneg (fdEtaI_pos c ha hb).le (fdCosI_nonneg c))
          (mul_nonneg (fdEtaT_pos c ha hb).le (fdCosT_nonneg c a b))
      refine Set.mem_Icc.mpr ⟨?_, ?_⟩
      · nlinarith [mul_self_nonneg (fdParl c a b), mul_self_nonneg (fdPerp c a b)]
      · nlinarith
  · intro h
    unfold FresnelDielectric
    rw [if_pos h]

/-- Claim C5 witness: concrete instance at c = 1/2, a = 1, b = 2. -/
theorem fresnel_range_tir_witness :
    FresnelDielectric (1/2) 1 2 ∈ Set.Icc (0:ℝ) 1 :=
  (fresnel_range_tir (1/2) 1 2 (by norm_num) (by norm_num) (by norm_num)
    (by norm_num)).1

/-- Claim C6: entering/exiting symmetry — for cosines in [-1,1] and
positive indices, `FresnelDielectric c a b = FresnelDielectric (-c) b a`. -/
theorem fresnel_swap_symm (c a b : ℝ) (hc1 : -1 ≤ c) (hc2 : c ≤ 1)
    (ha : 0 < a) (hb : 0 < b) :
    FresnelDielectric c a b = FresnelDielectric (-c) b a := by
  rcases lt_trichotomy c 0 with h | h | h
  · exact fd_swap c a b h
  · subst h
    rw [neg_zero, fd_cosi_zero a b ha hb, fd_cosi_zero b a hb ha]
  · have h2 : -c < 0 := by linarith
    rw [fd_swap (-c) b a h2, neg_neg]

/-- Claim C6 witness: concrete instance at c = 1/2, a = 1, b = 2. -/
theorem fresnel_swap_symm_witness :
    FresnelDielectric (1/2) 1 2 = FresnelDielectric (-(1/2)) 2 1 :=
  fresnel_swap_symm (1/2) 1 2 (by norm_num) (by norm_num) (by norm_num)
    (by norm_num)

/-! ## Claims C1 (perfect mirror) and C7 (diffuse) -/

/-- Claim C1 counterexample: at wo = (0,0,-1) with reflectance (1,1,1),
`ReflectBSDF::SampleF` returns `r * (1 / CosTheta(wi))` with the signed
cosine -1, giving (-1,-1,-1), which differs from the claimed
`reflectance / |cos(wi)|` = (1,1,1). -/
theorem reflect_value_signed_cos_cex :
    (ReflectBSDF.SampleF ⟨1, 1, 1⟩ ⟨0, 0, -1⟩).value ≠
      Spectrum.div ⟨1, 1, 1⟩
        |CosTheta ((ReflectBSDF.SampleF ⟨1, 1, 1⟩ ⟨0, 0, -1⟩).wi)| := by
  simp only [ReflectBSDF.SampleF, Spectrum.mul, Spectrum.div, CosTheta]
  norm_num [Spectrum.mk.injEq]

/-- Claim C1 (amended): for every wo with wo.z different from 0,
`ReflectBSDF::SampleF` sets wi to the mirror direction
(-wo.x, -wo.y, wo.z), sets pdf to 1, and returns
`reflectance / CosTheta(wi)` with the signed cosine, which agrees with
`reflectance / |cos(wi)|` exactly when wo.z is positive; `IsDelta` is true
and `F` returns the zero spectrum for every direction pair. -/
theorem reflect_sampleF_spec (r : Spectrum) (wo : Vector) (h : wo.z ≠ 0) :
    (ReflectBSDF.SampleF r wo).wi = ⟨-wo.x, -wo.y, wo.z⟩ ∧
    (ReflectBSDF.SampleF r wo).pdf = 1 ∧
    (ReflectBSDF.SampleF r wo).value =
      Spectrum.div r (CosTheta ((ReflectBSDF.SampleF r wo).wi)) ∧
    (0 < wo.z → (ReflectBSDF.SampleF r wo).value =
      Spectrum.div r |CosTheta ((ReflectBSDF.SampleF r wo).wi)|) ∧
    ReflectBSDF.IsDelta = true ∧
    (∀ wo2 wi2 : Vector, ReflectBSDF.F r wo2 wi2 = Spectrum.zero) := by
  refine ⟨rfl, rfl, ?_, ?_, rfl, fun _ _ => rfl⟩
  · simp [ReflectBSDF.SampleF, Spectrum.mul, Spectrum.div, CosTheta,
      mul_one_div, div_eq_mul_inv]
  · intro hz
    simp [ReflectBSDF.SampleF, Spectrum.mul, Spectrum.div, CosTheta,
      mul_one_div, abs_of_pos hz, div_eq_mul_inv]

/-- Claim C1 witness: concrete instance at r = (1,1,1),
wo = (3/10, 2/5, 1/2). -/
theorem reflect_sampleF_spec_witness :
    (ReflectBSDF.SampleF ⟨1, 1, 1⟩ ⟨3/10, 2/5, 1/2⟩).pdf = 1 :=
  (reflect_sampleF_spec ⟨1, 1, 1⟩ ⟨3/10, 2/5, 1/2⟩
    (by show (1:ℝ)/2 ≠ 0; norm_num)).2.1

/-- Claim C7: `DiffuseBSDF::F` equals the stored reflectance times 1/pi
for every direction pair, and `SampleF` returns pdf = cos(wi)/pi together
with value = F(wo, wi) exactly, for every pair of uniform draws. -/
theorem diffuse_F_sampleF_spec (r : Spectrum) (wo : Vector) (u1 u2 : ℝ) :
    (∀ wo2 wi2 : Vector, DiffuseBSDF.F r wo2 wi2 = Spectrum.mul r (1 / PI)) ∧
    (DiffuseBSDF.SampleF r wo u1 u2).pdf =
      CosTheta ((DiffuseBSDF.SampleF r wo u1 u2).wi) / PI ∧
    (DiffuseBSDF.SampleF r wo u1 u2).value =
      DiffuseBSDF.F r wo ((DiffuseBSDF.SampleF r wo u1 u2).wi) := by
  refine ⟨fun _ _ => rfl, ?_, rfl⟩
  simp [DiffuseBSDF.SampleF, INV_PI, PI, mul_one_div, div_eq_mul_inv]

/-! ## Claim C8 (total internal reflection branch) -/

/-- Claim C8: whenever the squared transmitted sine `eta^2 * sin^2` is at
least 1, `RefractBSDF::SampleF` takes the total-internal-reflection
branch: wi is the mirrored direction, pdf equals re = 1, and the value is
`reflectance * re / |cos(wi)|`. -/
theorem refract_tir_branch (r : Spectrum) (etaiC etatC : ℝ) (wo : Vector)
    (h : 1 ≤ rfSinT etaiC etatC wo) :
    (RefractBSDF.SampleF r etaiC etatC wo).wi = ⟨-wo.x, -wo.y, wo.z⟩ ∧
    (RefractBSDF.SampleF r etaiC etatC wo).pdf = 1 ∧
    (RefractBSDF.SampleF r etaiC etatC wo).value =
      Spectrum.div (Spectrum.mul r 1) (AbsCosTheta ⟨-wo.x, -wo.y, wo.z⟩) := by
  have hn : ¬(rfSinT etaiC etatC wo < 1) := not_lt.mpr h
  unfold RefractBSDF.SampleF
  rw [if_neg hn]
  exact ⟨rfl, rfl, rfl⟩

/-- Claim C8 witness: etai = 3/2, etat = 1, wo = (4/5, 0, -3/5) is beyond
the critical angle (squared transmitted sine 36/25). -/
theorem refract_tir_branch_witness :
    (RefractBSDF.SampleF ⟨1, 1, 1⟩ (3/2) 1 ⟨4/5, 0, -3/5⟩).pdf = 1 :=
  (refract_tir_branch ⟨1, 1, 1⟩ (3/2) 1 ⟨4/5, 0, -3/5⟩
    (by norm_num [rfSinT, rfEta, rfEtaI, rfEtaT, rfSinI, rfCosI,
      AbsCosTheta, CosTheta])).2.1

/-! ## Claim C9 (the inline Fresnel term of the refraction branch) -/

lemma rfEtaI_pos {a b : ℝ} (wo : Vector) (ha : 0 < a) (hb : 0 < b) :
    0 < rfEtaI a b wo := by
  unfold rfEtaI
  split <;> assumption

lemma rfEtaT_pos {a b : ℝ} (wo : Vector) (ha : 0 < a) (hb : 0 < b) :
    0 < rfEtaT a b wo := by
  unfold rfEtaT
  split <;> assumption

/-- Claim C9: in the refraction branch (squared transmitted sine below 1),
the Fresnel reflectance computed inline by `RefractBSDF::SampleF` equals
`FresnelDielectric(|wo.z|, etaIncident, etaTransmitted)` with the indices
assigned by the entering/exiting test. -/
theorem refract_re_eq_fresnel (etaiC etatC : ℝ) (wo : Vector)
    (hei : 0 < etaiC) (het : 0 < etatC)
    (h : rfSinT etaiC etatC wo < 1) :
    rfRe etaiC etatC wo =
      FresnelDielectric (AbsCosTheta wo) (rfEtaI etaiC etatC wo)
        (rfEtaT etaiC etatC wo) := by
  have hA : 0 < rfEtaI etaiC etatC wo := rfEtaI_pos wo hei het
  have hB : 0 < rfEtaT etaiC etatC wo := rfEtaT_pos wo hei het
  have hc0 : 0 ≤ AbsCosTheta wo := by unfold AbsCosTheta; positivity
  have hnl : ¬(AbsCosTheta wo < 0) := not_lt.mpr hc0
  have hcos : fdCosI (AbsCosTheta wo) = AbsCosTheta wo := by
    unfold fdCosI
    rw [if_neg hnl]
  have hEI : fdEtaI (AbsCosTheta wo) (rfEtaI etaiC etatC wo)
      (rfEtaT etaiC etatC wo) = rfEtaI etaiC etatC wo := by
    unfold fdEtaI
    rw [if_neg hnl]
  have hET : fdEtaT (AbsCosTheta wo) (rfEtaI etaiC etatC wo)
      (rfEtaT etaiC etatC wo) = rfEtaT etaiC etatC wo := by
    unfold fdEtaT
    rw [if_neg hnl]
  have hS0 : 0 ≤ rfSinI wo := le_max_left _ _
  have hsinI : fdSinI (AbsCosTheta wo) = Real.sqrt (rfSinI wo) := by
    unfold fdSinI rfSinI rfCosI
    rw [hcos]
  have hsinT : fdSinT (AbsCosTheta wo) (rfEtaI etaiC etatC wo)
      (rfEtaT etaiC etatC wo) = rfEta etaiC etatC wo * Real.sqrt (rfSinI wo) := by
    unfold fdSinT rfEta
    rw [hsinI, hEI, hET]
  have hEta0 : 0 ≤ rfEta etaiC etatC wo := by
    unfold rfEta
    exact div_nonneg hA.le hB.le
  have hsq : fdSinT (AbsCosTheta wo) (rfEtaI etaiC etatC wo)
        (rfEtaT etaiC etatC wo) *
      fdSinT (AbsCosTheta wo) (rfEtaI etaiC etatC wo)
        (rfEtaT etaiC etatC wo) = rfSinT etaiC etatC wo := by
    rw [hsinT]
    unfold rfSinT
    rw [mul_mul_mul_comm, Real.mul_self_sqrt hS0]
  have hst0 : 0 ≤ fdSinT (AbsCosTheta wo) (rfEtaI etaiC etatC wo)
      (rfEtaT etaiC etatC wo) := by
    rw [hsinT]
    exact mul_nonneg hEta0 (Real.sqrt_nonneg _)
  have hlt : fdSinT (AbsCosTheta wo) (rfEtaI etaiC etatC wo)
      (rfEtaT etaiC etatC wo) < 1 := by
    nlinarith
  have hcost : fdCosT (AbsCosTheta wo) (rfEtaI etaiC etatC wo)
      (rfEtaT etaiC etatC wo) = rfCosT etaiC etatC wo := by
    unfold fdCosT rfCosT
    rw [hsq, max_eq_right (by linarith)]
  unfold FresnelDielectric
  rw [if_neg (not_le.mpr hlt)]
  unfold rfRe fdParl fdPerp rfParl rfPerp rfCosI
  rw [hcos, hcost, hEI, hET]

/-- Claim C9 witness: concrete instance at etai = 1, etat = 3/2,
wo = (0, 0, -1). -/
theorem refract_re_eq_fresnel_witness :
    rfRe 1 (3/2) ⟨0, 0, -1⟩ =
      FresnelDielectric (AbsCosTheta ⟨0, 0, -1⟩) (rfEtaI 1 (3/2) ⟨0, 0, -1⟩)
        (rfEtaT 1 (3/2) ⟨0, 0, -1⟩) :=
  refract_re_eq_fresnel 1 (3/2) ⟨0, 0, -1⟩ (by norm_num) (by norm_num)
    (by norm_num [rfSinT, rfEta, rfEtaI, rfEtaT, rfSinI, rfCosI,
      AbsCosTheta, CosTheta])

/-! ## Claim C2 (dielectric at normal incidence, etai = 1, etat = 3/2) -/

lemma rf_c2_etaI : rfEtaI 1 (3/2) ⟨0, 0, -1⟩ = 1 := by
  norm_num [rfEtaI, CosTheta]

lemma rf_c2_etaT : rfEtaT 1 (3/2) ⟨0, 0, -1⟩ = 3/2 := by
  norm_num [rfEtaT, CosTheta]

lemma rf_c2_eta : rfEta 1 (3/2) ⟨0, 0, -1⟩ = 2/3 := by
  unfold rfEta
  rw [rf_c2_etaI, rf_c2_etaT]
  norm_num

lemma rf_c2_cosi : rfCosI ⟨0, 0, -1⟩ = 1 := by
  norm_num [rfCosI, AbsCosTheta]

lemma rf_c2_sint : rfSinT 1 (3/2) ⟨0, 0, -1⟩ = 0 := by
  unfold rfSinT rfSinI
  rw [rf_c2_cosi]
  norm_num

lemma rf_c2_cost : rfCosT 1 (3/2) ⟨0, 0, -1⟩ = 1 := by
  unfold rfCosT
  rw [rf_c2_sint]
  norm_num [Real.sqrt_one]

lemma rf_c2_re : rfRe 1 (3/2) ⟨0, 0, -1⟩ = 1/25 := by
  unfold rfRe rfParl rfPerp
  rw [rf_c2_etaI, rf_c2_etaT, rf_c2_cosi, rf_c2_cost]
  norm_num

lemma sqrt_one_ninth : Real.sqrt (1/9) = 1/3 := by
  rw [show (1/9 : ℝ) = (1/3) * (1/3) by norm_num,
    Real.sqrt_mul_self (by norm_num : (0:ℝ) ≤ 1/3)]

lemma sqrt_nine : Real.sqrt 9 = 3 := by
  rw [show (9 : ℝ) = 3 * 3 by norm_num,
    Real.sqrt_mul_self (by norm_num : (0:ℝ) ≤ 3)]

lemma rf_c2_wi : rfWiRefract 1 (3/2) ⟨0, 0, -1⟩ = ⟨0, 0, -1⟩ := by
  unfold rfWiRefract rfWiPre
  rw [rf_c2_eta, rf_c2_cosi, rf_c2_cost]
  norm_num [CosTheta, Vector.smul, Vector.add, Normalize, Vector.length,
    sqrt_one_ninth, sqrt_nine, Vector.mk.injEq]

lemma spectrum_div_one (s : Spectrum) : Spectrum.div s 1 = s := by
  unfold Spectrum.div
  simp

lemma rf_c2_sample (r : Spectrum) :
    RefractBSDF.SampleF r 1 (3/2) ⟨0, 0, -1⟩ =
      ⟨Spectrum.mul r (24/25), ⟨0, 0, -1⟩, 24/25⟩ := by
  unfold RefractBSDF.SampleF
  rw [if_pos (by rw [rf_c2_sint]; norm_num)]
  rw [rf_c2_re, rf_c2_wi]
  rw [show (1 - 1/25 : ℝ) = 24/25 by norm_num]
  rw [show AbsCosTheta ⟨0, 0, -1⟩ = 1 by norm_num [AbsCosTheta]]
  rw [spectrum_div_one]

/-- Claim C2 counterexample: with etai = 1, etat = 3/2 and
wo = (0, 0, -1), the sampled refracted direction is (0, 0, -1); its z is
negative, not positive as the claim states. -/
theorem refract_normal_incidence_cex :
    ¬(0 < ((RefractBSDF.SampleF ⟨1, 1, 1⟩ 1 (3/2) ⟨0, 0, -1⟩).wi).z) := by
  rw [rf_c2_sample]
  norm_num

/-- Claim C2 (amended): with etai = 1, etat = 3/2, at normal incidence
wo = (0, 0, -1) the refraction branch computes re = 1/25 = 0.04 and
pdf = 1 - re = 24/25 = 0.96, but the refracted direction is (0, 0, -1),
continuing into the -z hemisphere (wi.z < 0, the transmission side), not
the +z hemisphere. -/
theorem refract_normal_incidence_spec (r : Spectrum) :
    rfRe 1 (3/2) ⟨0, 0, -1⟩ = 1/25 ∧
    (RefractBSDF.SampleF r 1 (3/2) ⟨0, 0, -1⟩).pdf = 24/25 ∧
    (RefractBSDF.SampleF r 1 (3/2) ⟨0, 0, -1⟩).wi = ⟨0, 0, -1⟩ ∧
    ((RefractBSDF.SampleF r 1 (3/2) ⟨0, 0, -1⟩).wi).z < 0 ∧
    (RefractBSDF.SampleF r 1 (3/2) ⟨0, 0, -1⟩).value =
      Spectrum.mul r (24/25) := by
  rw [rf_c2_sample]
  exact ⟨rf_c2_re, rfl, rfl, by norm_num, rfl⟩

/-! ## Claim C3 (well-defined finite values / divisions by zero) -/

lemma rf_c3_etaI : rfEtaI 1 2 ⟨0, 0, -1⟩ = 1 := by
  norm_num [rfEtaI, CosTheta]

lemma rf_c3_etaT : rfEtaT 1 2 ⟨0, 0, -1⟩ = 2 := by
  norm_num [rfEtaT, CosTheta]

lemma rf_c3_eta : rfEta 1 2 ⟨0, 0, -1⟩ = 1/2 := by
  unfold rfEta
  rw [rf_c3_etaI, rf_c3_etaT]

lemma rf_c3_sint : rfSinT 1 2 ⟨0, 0, -1⟩ = 0 := by
  unfold rfSinT rfSinI
  rw [rf_c2_cosi]
  norm_num

lemma rf_c3_cost : rfCosT 1 2 ⟨0, 0, -1⟩ = 1 := by
  unfold rfCosT
  rw [rf_c3_sint]
  norm_num [Real.sqrt_one]

lemma rf_c3_pre : rfWiPre 1 2 ⟨0, 0, -1⟩ = ⟨0, 0, 0⟩ := by
  unfold rfWiPre
  rw [rf_c3_eta, rf_c2_cosi, rf_c3_cost]
  norm_num [CosTheta, Vector.smul, Vector.add, Vector.mk.injEq]

lemma rf_c3_len : Vector.length (rfWiPre 1 2 ⟨0, 0, -1⟩) = 0 := by
  rw [rf_c3_pre]
  unfold Vector.length
  norm_num [Real.sqrt_zero]

lemma rf_c3_wi : rfWiRefract 1 2 ⟨0, 0, -1⟩ = ⟨0, 0, 0⟩ := by
  unfold rfWiRefract
  rw [rf_c3_pre]
  unfold Normalize Vector.smul
  norm_num [Vector.mk.injEq]

/-- Claim C3 counterexample, two division-by-zero sites of the claim.
At the grazing direction wo = (1, 0, 0), the mirrored direction has zero
cosine, so `ReflectBSDF::SampleF` divides its reflectance by
`CosTheta(wi) = 0`.  And at the non-grazing normal incidence
wo = (0, 0, -1) with etai = 1, etat = 2, the refraction branch is taken
(squared transmitted sine 0 < 1) yet the pre-normalisation refracted
vector is the zero vector: `Normalize` divides by the length 0 and the
returned value then divides by `AbsCosTheta(wi) = 0`. -/
theorem finite_value_div_zero_cex :
    CosTheta ((ReflectBSDF.SampleF ⟨1, 1, 1⟩ ⟨1, 0, 0⟩).wi) = 0 ∧
    rfSinT 1 2 ⟨0, 0, -1⟩ < 1 ∧
    Vector.length (rfWiPre 1 2 ⟨0, 0, -1⟩) = 0 ∧
    AbsCosTheta ((RefractBSDF.SampleF ⟨1, 1, 1⟩ 1 2 ⟨0, 0, -1⟩).wi) = 0 := by
  refine ⟨rfl, by rw [rf_c3_sint]; norm_num, rf_c3_len, ?_⟩
  unfold RefractBSDF.SampleF
  rw [if_pos (by rw [rf_c3_sint]; norm_num)]
  show AbsCosTheta (rfWiRefract 1 2 ⟨0, 0, -1⟩) = 0
  rw [rf_c3_wi]
  norm_num [AbsCosTheta]

/-- Claim C3 (amended): the F operations of all variants are division
free (pi is positive for the diffuse one); away from grazing directions
(wo.z different from 0) the divisor of `ReflectBSDF::SampleF` and the
divisor of the total-internal-reflection branch of
`RefractBSDF::SampleF` are nonzero, and the two Fresnel denominators of
the refraction branch are strictly positive.  The refraction branch
additionally divides by the length of the pre-normalisation refracted
vector and by `|cos(wi)|` of the normalised direction; both of those are
nonzero whenever the pre-normalisation vector has nonzero z, but the
counterexample shows they can vanish even at non-grazing inputs, and the
specular divisors vanish at grazing directions, so the unconditional
claim fails. -/
theorem finite_value_spec (r : Spectrum) (wo : Vector) (etaiC etatC : ℝ)
    (h : wo.z ≠ 0) (hei : 0 < etaiC) (het : 0 < etatC) :
    (0:ℝ) < PI ∧
    (∀ wo2 wi2 : Vector, ReflectBSDF.F r wo2 wi2 = Spectrum.zero) ∧
    (∀ wo2 wi2 : Vector, RefractBSDF.F r wo2 wi2 = Spectrum.zero) ∧
    (∀ wo2 wi2 : Vector, DiffuseBSDF.F r wo2 wi2 = Spectrum.mul r INV_PI) ∧
    CosTheta ((ReflectBSDF.SampleF r wo).wi) ≠ 0 ∧
    (1 ≤ rfSinT etaiC etatC wo →
      AbsCosTheta ((RefractBSDF.SampleF r etaiC etatC wo).wi) ≠ 0) ∧
    (rfSinT etaiC etatC wo < 1 →
      0 < rfEtaT etaiC etatC wo * rfCosI wo +
          rfEtaI etaiC etatC wo * rfCosT etaiC etatC wo ∧
      0 < rfEtaI etaiC etatC wo * rfCosI wo +
          rfEtaT etaiC etatC wo * rfCosT etaiC etatC wo) ∧
    (rfSinT etaiC etatC wo < 1 → (rfWiPre etaiC etatC wo).z ≠ 0 →
      Vector.length (rfWiPre etaiC etatC wo) ≠ 0 ∧
      AbsCosTheta ((RefractBSDF.SampleF r etaiC etatC wo).wi) ≠ 0) := by
  refine ⟨Real.pi_pos, fun _ _ => rfl, fun _ _ => rfl, fun _ _ => rfl,
    h, ?_, ?_, ?_⟩
  · intro h1
    unfold RefractBSDF.SampleF
    rw [if_neg (not_lt.mpr h1)]
    exact abs_ne_zero.mpr h
  · intro _
    have hA : 0 < rfEtaI etaiC etatC wo := rfEtaI_pos wo hei het
    have hB : 0 < rfEtaT etaiC etatC wo := rfEtaT_pos wo hei het
    have hc : 0 < rfCosI wo := by
      unfold rfCosI AbsCosTheta
      exact abs_pos.mpr h
    have hct : 0 ≤ rfCosT etaiC etatC wo := Real.sqrt_nonneg _
    constructor
    · nlinarith
    · nlinarith
  · intro hlt hz
    have hlen : 0 < Vector.length (rfWiPre etaiC etatC wo) := by
      unfold Vector.length
      apply Real.sqrt_pos.mpr
      nlinarith [mul_self_nonneg (rfWiPre etaiC etatC wo).x,
        mul_self_nonneg (rfWiPre etaiC etatC wo).y,
        mul_self_pos.mpr hz]
    refine ⟨hlen.ne', ?_⟩
    unfold RefractBSDF.SampleF
    rw [if_pos hlt]
    show AbsCosTheta (rfWiRefract etaiC etatC wo) ≠ 0
    have hzz : (rfWiRefract etaiC etatC wo).z =
        (rfWiPre etaiC etatC wo).z *
          (1 / Vector.length (rfWiPre etaiC etatC wo)) := rfl
    unfold AbsCosTheta
    rw [hzz, abs_ne_zero]
    exact mul_ne_zero hz (one_div_ne_zero hlen.ne')

/-- Claim C3 witness: concrete instance at r = (1,1,1), wo = (0,0,-1),
etai = 1, etat = 3/2. -/
theorem finite_value_spec_witness :
    CosTheta ((ReflectBSDF.SampleF ⟨1, 1, 1⟩ ⟨0, 0, -1⟩).wi) ≠ 0 :=
  (finite_value_spec ⟨1, 1, 1⟩ ⟨0, 0, -1⟩ 1 (3/2)
    (by show (-1 : ℝ) ≠ 0; norm_num) (by norm_num)
    (by norm_num)).2.2.2.2.1

/-! ## Claim C10 (camera raster round trip) -/

/-- Claim C10: `RasterToWorld` always produces a direction with strictly
negative z (the image plane sits at z = -1 before normalisation), and
`WorldToRaster` returns the (-1, -1) sentinel for any such direction, so
the raster-to-world-to-raster round trip never recovers the pixel. -/
theorem camera_raster_roundtrip (resolution : Point2i) (p : Point2)
    (hx : 0 < resolution.x) (hy : 0 < resolution.y) :
    (RasterToWorld resolution p).z < 0 ∧
    WorldToRaster resolution (RasterToWorld resolution p) = ⟨-1, -1⟩ := by
  have hz : (RasterToWorld resolution p).z < 0 := by
    unfold RasterToWorld Normalize Vector.smul Vector.length
    show (-1 : ℝ) * (1 / Real.sqrt
      ((p.x / (resolution.x : ℝ) - 0.5) * (p.x / (resolution.x : ℝ) - 0.5) +
       (0.5 - p.y / (resolution.y : ℝ)) * (0.5 - p.y / (resolution.y : ℝ)) +
       (-1) * (-1))) < 0
    have harg : (0:ℝ) <
        (p.x / (resolution.x : ℝ) - 0.5) * (p.x / (resolution.x : ℝ) - 0.5) +
        (0.5 - p.y / (resolution.y : ℝ)) * (0.5 - p.y / (resolution.y : ℝ)) +
        (-1) * (-1) := by
      nlinarith [mul_self_nonneg (p.x / (resolution.x : ℝ) - 0.5),
        mul_self_nonneg (0.5 - p.y / (resolution.y : ℝ))]
    have hlen : 0 < Real.sqrt
        ((p.x / (resolution.x : ℝ) - 0.5) * (p.x / (resolution.x : ℝ) - 0.5) +
         (0.5 - p.y / (resolution.y : ℝ)) * (0.5 - p.y / (resolution.y : ℝ)) +
         (-1) * (-1)) := Real.sqrt_pos.mpr harg
    have hpos : 0 < 1 / Real.sqrt
        ((p.x / (resolution.x : ℝ) - 0.5) * (p.x / (resolution.x : ℝ) - 0.5) +
         (0.5 - p.y / (resolution.y : ℝ)) * (0.5 - p.y / (resolution.y : ℝ)) +
         (-1) * (-1)) := by positivity
    nlinarith
  refine ⟨hz, ?_⟩
  unfold WorldToRaster
  rw [if_pos hz.le]

/-- Claim C10 witness: concrete instance at resolution (512, 512) and
raster point (0, 0). -/
theorem camera_raster_roundtrip_witness :
    WorldToRaster ⟨512, 512⟩ (RasterToWorld ⟨512, 512⟩ ⟨0, 0⟩) = ⟨-1, -1⟩ :=
  (camera_raster_roundtrip ⟨512, 512⟩ ⟨0, 0⟩
    (by show (0:ℤ) < 512; norm_num) (by show (0:ℤ) < 512; norm_num)).2
